import Mathlib

/-!
Shallow embedding of the `RideDEventSink` class from `ride_d_event_sink.py`
(resilient multicast event delivery sink of the seismic warning testbed),
together with proofs about its subscriber registry, delivery dispatch,
subscription handling and startup publisher-route installation.

External collaborators (the RideD middleware / topology manager and the CoAP
transport) are modelled as oracles: records of functions that may raise, over
which the theorems quantify.
-/

namespace RideD

/-- Topics are opaque strings; they key the subscriber registry and appear in the
CoAP resource path of outbound sends. -/
abbrev Topic := String

/-- Host identifier (IP address or hostname) of a subscriber or publisher. -/
abbrev Address := String

/-- The canonical alert topic `SEISMIC_ALERT_TOPIC` imported from
`seismic_alert_common`.  Its concrete value is irrelevant to the sink: it is only
ever compared for equality. -/
def SEISMIC_ALERT_TOPIC : Topic := "seismic_alert"

/-- Kinds of Python exception the sink distinguishes.  `send_event` catches
`IOError` only; `process_subscription` and the publisher loop in `on_start`
catch `BaseException` (any kind); the topic check in `__process_coap_subscription`
raises `AssertionError`. -/
inductive PyErr where
  | ioError
  | assertionError
  | otherError
deriving DecidableEq, Repr

/-- Python `set.add` on a set represented as a duplicate-free list in insertion
order: a no-op when the element is already present. -/
def setAdd (s : List Address) (a : Address) : List Address :=
  if a ∈ s then s else s ++ [a]

/-- The Subscriber Registry `self.subscribers`: a Python dict from topic to a set
of subscriber addresses, modelled as an association list in key-insertion order
with set values as duplicate-free lists. -/
abbrev Registry := List (Topic × List Address)

/-- Dict lookup: `self.subscribers[topic]` when present (`topic in self.subscribers`
tests `(regFind r t).isSome`). -/
def regFind : Registry → Topic → Option (List Address)
  | [], _ => none
  | (t, s) :: rest, topic => if t = topic then some s else regFind rest topic

/-- The single mutation the sink performs on the registry
(`self.subscribers.setdefault(topic, set()).add(host)`, line 258): insert the
key with an empty set if absent, then add the host to the set. -/
def regAdd : Registry → Topic → Address → Registry
  | [], topic, host => [(topic, [host])]
  | (t, s) :: rest, topic, host =>
    if t = topic then (t, setAdd s host) :: rest
    else (t, s) :: regAdd rest topic host

/-- Read access used by unicast dispatch: `self.subscribers.get(topic, [])`. -/
def regGet (r : Registry) (t : Topic) : List Address := (regFind r t).getD []

/-- The external RideD middleware / topology manager, as the sink calls it.
Each operation is an oracle that may raise a Python exception (`Except.error`).
The field `get_best_multicast_address` is Modelled from the spec: `RideD` itself
is not among the sources of this repository; per the spec the lookup yields
`address | notFound` and a failed lookup ("NoAddressAvailable") surfaces as the
delivery-failure path of `send_event` (the caught handler), so it is modelled as
returning `none` on failure. -/
structure TreeProvider where
  /-- The server datapath identifier `self.rided.dpid`. -/
  dpid : String
  /-- Source `topology_manager.get_host_by_ip(host)`: resolve an IP to a topology node. -/
  get_host_by_ip : Address → Except PyErr Address
  /-- Source `topology_manager.get_path(a, b)`: compute a path between two nodes. -/
  get_path : Address → String → Except PyErr (List String)
  /-- Source `rided.add_subscriber(host, topic_id)`: register a subscriber for a topic. -/
  add_subscriber : Address → Topic → Except PyErr Unit
  /-- Modelled from the spec: `bestMulticastAddress(topic) -> address | notFound`;
  `none` covers both "no tree exists for that topic" and a lookup failure. -/
  get_best_multicast_address : Topic → Option Address
  /-- Source `topology_manager.build_flow_rules_from_path(route)`. -/
  build_flow_rules_from_path : List String → Except PyErr (List String)
  /-- Source `topology_manager.install_flow_rule(r)`. -/
  install_flow_rule : String → Except PyErr Unit
  /-- Source `rided.set_publisher_route(pub, route)`: register a static publisher route. -/
  set_publisher_route : String → List String → Except PyErr Unit

/-- An event handed to the sink for delivery; the payload is opaque (it is only
re-serialized by the external encoder). -/
structure SensedEvent where
  topic : Topic
  data : String
deriving DecidableEq, Repr

/-- One outbound CoAP PUT issued by `__sendto`: destination address and port, the
resource path, and the serialized payload. -/
structure SendRec where
  address : Address
  port : Nat
  path : String
  payload : String
deriving DecidableEq, Repr

/-- Configuration and mutable state of `RideDEventSink` relevant to the claims.
`use_multicast` also stands for the truthiness of `self.rided` after `on_start`:
that field is `None` exactly when multicast is disabled and a built (truthy)
`RideD` instance otherwise. -/
structure SinkState where
  subscribers : Registry
  port : Nat
  topics_to_sink : List Topic
  use_multicast : Bool
deriving Repr

/-- Embeds `RideDEventSink.__sendto(msg, topic, address)` (lines 152-176): one CoAP PUT
of `msg` to path `/events/<topic>` at `(address, self.port)`.  `transport a = true`
models `coap_client.put` raising `IOError` for destination `a`; on success exactly
one outbound request is recorded. -/
def sendto (transport : Address → Bool) (port : Nat) (msg : String) (topic : Topic)
    (address : Address) : Except Unit SendRec :=
  if transport address then Except.error ()
  else Except.ok ⟨address, port, "/events/" ++ topic, msg⟩

/-- The unicast branch of `send_event` (lines 216-217): iterate over the
registered addresses issuing one send each, inside the single `try` block, so an
`IOError` raised at one address aborts the iteration (the exception propagates to
the `except IOError` handler, which returns `False`).  Returns the Python result
and the sends issued before any failure. -/
def unicastSends (transport : Address → Bool) (port : Nat) (msg : String)
    (topic : Topic) : List Address → Bool × List SendRec
  | [] => (true, [])
  | a :: rest =>
    match sendto transport port msg topic a with
    | Except.error _ => (false, [])
    | Except.ok s =>
      let p := unicastSends transport port msg topic rest
      (p.1, s :: p.2)

/-- Embeds `RideDEventSink.send_event(event)` (lines 196-223).  The event is serialized
once (`encode_event`, an opaque external encoder) before dispatch.  In multicast
mode the best multicast address is looked up and a single send issued to it; in
unicast mode one send is issued per registered subscriber.  `IOError` (and, per
the spec model, a failed multicast lookup) is caught and turned into a `false`
return.  Returns the Python result and the list of sends issued. -/
def send_event (tp : TreeProvider) (transport : Address → Bool)
    (encode : SensedEvent → String) (st : SinkState) (event : SensedEvent) :
    Bool × List SendRec :=
  let topic := event.topic
  let msg := encode event
  if st.use_multicast then
    match tp.get_best_multicast_address topic with
    | none => (false, [])
    | some address =>
      match sendto transport st.port msg topic address with
      | Except.error _ => (false, [])
      | Except.ok s => (true, [s])
  else
    unicastSends transport st.port msg topic (regGet st.subscribers topic)

/-- Result of `process_subscription`: the Python return value, the post-state of
the Subscriber Registry, and the `rided.add_subscriber` registrations that
reached the Tree Provider. -/
structure SubResult where
  retval : Bool
  subscribers : Registry
  rided_subs : List (Address × Topic)
deriving Repr

/-- Embeds `RideDEventSink.process_subscription(topic, host)` (lines 246-274).  The host
is added to `self.subscribers` under the request topic FIRST (line 258, under the
lock); only then, when `self.rided` is truthy, the host is resolved, a path to the
server is computed and the resolved host is registered with the Tree Provider
under `SEISMIC_ALERT_TOPIC`; any exception in those steps is caught and yields a
`False` return. -/
def process_subscription (tp : TreeProvider) (ridedActive : Bool) (reg : Registry)
    (topic : Topic) (host : Address) : SubResult :=
  let reg2 := regAdd reg topic host
  let outcome : Bool × List (Address × Topic) :=
    if ridedActive then
      match tp.get_host_by_ip host with
      | Except.error _ => (false, [])
      | Except.ok host2 =>
        match tp.get_path host2 tp.dpid with
        | Except.error _ => (false, [])
        | Except.ok _ =>
          match tp.add_subscriber host2 SEISMIC_ALERT_TOPIC with
          | Except.error _ => (false, [])
          | Except.ok _ => (true, [(host2, SEISMIC_ALERT_TOPIC)])
    else (true, [])
  ⟨outcome.1, reg2, outcome.2⟩

/-- Reply of the CoAP subscription endpoint: the resource object on success, the
literal `False` on a rejected subscription. -/
inductive CoapReply where
  | resource
  | rejected
deriving DecidableEq, Repr

/-- Embeds `__process_coap_subscription(coap_request, coap_resource)` (lines 292-310):
the payload is the topic; `assert topic == SEISMIC_ALERT_TOPIC` raises
`AssertionError` before anything else happens; otherwise the request is passed to
`process_subscription`.  Returns the reply (or the uncaught exception) together
with the post-state of the registry and the Tree Provider registrations
(exceptions do not roll state back). -/
def process_coap_subscription (tp : TreeProvider) (ridedActive : Bool)
    (reg : Registry) (srcHost : Address) (payload : String) :
    Except PyErr CoapReply × Registry × List (Address × Topic) :=
  let topic := payload
  if topic = SEISMIC_ALERT_TOPIC then
    let r := process_subscription tp ridedActive reg topic srcHost
    (Except.ok (if r.retval then CoapReply.resource else CoapReply.rejected),
     r.subscribers, r.rided_subs)
  else
    (Except.error PyErr.assertionError, reg, [])

/-- Embeds `for r in flow_rules: install_flow_rule(r)` (lines 133-134): install rules in
order, propagating the first failure. -/
def installRules (tp : TreeProvider) : List String → Except PyErr Unit
  | [] => Except.ok ()
  | r :: rest =>
    match tp.install_flow_rule r with
    | Except.error e => Except.error e
    | Except.ok _ => installRules tp rest

/-- The body of the `try` block for one publisher in `on_start` (lines 130-135):
compute the shortest path, derive flow rules, install each rule, then register the
path as the static route of the publisher.  The first failing step raises. -/
def installPublisherRoute (tp : TreeProvider) (pub : String) :
    Except PyErr (List String) := do
  let route ← tp.get_path pub tp.dpid
  let rules ← tp.build_flow_rules_from_path route
  installRules tp rules
  tp.set_publisher_route pub route
  return route

/-- The publisher loop of `on_start` (lines 126-137): each publisher is processed
inside its own `try`/`except BaseException`, a failure being logged as a warning
and skipped.  Returns the (publisher, route) pairs successfully registered via
`set_publisher_route`. -/
def install_publisher_routes (tp : TreeProvider) (pubs : List String) :
    List (String × List String) :=
  pubs.filterMap fun pub =>
    match installPublisherRoute tp pub with
    | Except.error _ => none
    | Except.ok route => some (pub, route)

/-- Embeds `RideDEventSink.check_available(event)` (lines 318-321): deliver only events
whose topic is in the configured sink list and currently a key of the registry
(`event.topic in self.topics_to_sink and event.topic in self.subscribers`). -/
def check_available (st : SinkState) (event : SensedEvent) : Bool :=
  st.topics_to_sink.contains event.topic
    && (regFind st.subscribers event.topic).isSome

/-- Reachable registry states of the sink: `self.subscribers` starts as the empty
dict (`__init__`, line 57) and the only mutation anywhere in the class is the one
performed by `process_subscription` (line 258), for an arbitrary provider, mode,
topic and host. -/
inductive RegReachable : Registry → Prop where
  | init : RegReachable []
  | step (tp : TreeProvider) (b : Bool) (t : Topic) (a : Address) {r : Registry} :
      RegReachable r → RegReachable (process_subscription tp b r t a).subscribers

/-- Structural well-formedness of the registry: every key maps to a non-empty
set, keys are unique (it models a dict), and each value is duplicate-free (it
models a set). -/
def RegInv (r : Registry) : Prop :=
  (∀ p ∈ r, p.2 ≠ ([] : List Address)) ∧ (r.map Prod.fst).Nodup
    ∧ (∀ p ∈ r, p.2.Nodup)

/-- A fully healthy Tree Provider, used to instantiate the theorems on concrete
inputs: every operation succeeds. -/
def tpOk : TreeProvider where
  dpid := "s0"
  get_host_by_ip := fun h => Except.ok h
  get_path := fun h _ => Except.ok [h, "s0"]
  add_subscriber := fun _ _ => Except.ok ()
  get_best_multicast_address := fun _ => some "10.255.0.1"
  build_flow_rules_from_path := fun route => Except.ok route
  install_flow_rule := fun _ => Except.ok ()
  set_publisher_route := fun _ _ => Except.ok ()

/-- A Tree Provider whose host resolution raises, as when a subscriber is absent
from the topology view. -/
def tpNoHost : TreeProvider :=
  { tpOk with get_host_by_ip := fun _ => Except.error PyErr.otherError }

/-- A Tree Provider with no multicast tree available for any topic. -/
def tpNoTree : TreeProvider :=
  { tpOk with get_best_multicast_address := fun _ => none }

/-- A Tree Provider for which path computation fails exactly for publisher
`"pBad"`. -/
def tpPubFail : TreeProvider :=
  { tpOk with get_path := fun h _ =>
      if h = "pBad" then Except.error PyErr.otherError else Except.ok [h, "s0"] }

/-- A transport on which every send succeeds. -/
def transportUp : Address → Bool := fun _ => false

/-- A transport on which the send to `10.0.0.2` raises `IOError` and every other
send succeeds. -/
def transportDownA : Address → Bool := fun a => a == "10.0.0.2"

/-- A stand-in for the opaque external serializer `encode_event`. -/
def encodeJson : SensedEvent → String := fun e => "\x7b" ++ e.topic ++ ":" ++ e.data ++ "\x7d"

/-- A concrete unicast-mode sink state with two subscribers registered under
topic `alerts`. -/
def stUnicast : SinkState :=
  ⟨[("alerts", ["10.0.0.2", "10.0.0.3"])], 5683, ["alerts"], false⟩

/-- A concrete unicast-mode sink state with three subscribers registered under
topic `alerts`. -/
def stUnicast3 : SinkState :=
  ⟨[("alerts", ["10.0.0.1", "10.0.0.2", "10.0.0.3"])], 5683, ["alerts"], false⟩

/-- A concrete multicast-mode sink state with an empty registry. -/
def stMulticast : SinkState := ⟨[], 5683, [SEISMIC_ALERT_TOPIC], true⟩

/-- A concrete event on topic `alerts`. -/
def evAlerts : SensedEvent := ⟨"alerts", "magnitude7"⟩

/-- A concrete event on the canonical alert topic. -/
def evSeismic : SensedEvent := ⟨SEISMIC_ALERT_TOPIC, "magnitude7"⟩

/-! ### Helper lemmas about the registry operations -/

theorem setAdd_ne_nil (s : List Address) (a : Address) : setAdd s a ≠ [] := by
  unfold setAdd
  split
  · rename_i h
    intro hs
    subst hs
    simp at h
  · simp

theorem setAdd_of_mem {s : List Address} {a : Address} (h : a ∈ s) :
    setAdd s a = s := by
  simp [setAdd, h]

theorem setAdd_nodup {s : List Address} (a : Address) (h : s.Nodup) :
    (setAdd s a).Nodup := by
  unfold setAdd
  split
  · exact h
  · rename_i hna
    rw [List.nodup_append]
    refine ⟨h, List.nodup_singleton a, ?_⟩
    intro x hx hxa
    simp only [List.mem_singleton] at hxa
    exact hna (hxa ▸ hx)

theorem regFind_mem {r : Registry} {t : Topic} {l : List Address}
    (h : regFind r t = some l) : (t, l) ∈ r := by
  induction r with
  | nil => simp [regFind] at h
  | cons p rest ih =>
    obtain ⟨t1, s⟩ := p
    simp only [regFind] at h
    split at h
    · rename_i ht
      injection h with h2
      subst ht
      subst h2
      exact List.mem_cons_self _ _
    · exact List.mem_cons_of_mem _ (ih h)

theorem regFind_eq_none {r : Registry} {t : Topic} :
    regFind r t = none ↔ t ∉ r.map Prod.fst := by
  induction r with
  | nil => simp [regFind]
  | cons p rest ih =>
    obtain ⟨t1, s⟩ := p
    simp only [regFind, List.map_cons, List.mem_cons]
    split
    · rename_i ht
      subst ht
      simp
    · rename_i ht
      rw [ih]
      constructor
      · intro hn hc
        rcases hc with h1 | h1
        · exact ht h1.symm
        · exact hn h1
      · intro hn h1
        exact hn (Or.inr h1)

theorem regAdd_map_fst (r : Registry) (t : Topic) (a : Address) :
    (regAdd r t a).map Prod.fst =
      if (regFind r t).isSome then r.map Prod.fst
      else r.map Prod.fst ++ [t] := by
  induction r with
  | nil => simp [regAdd, regFind]
  | cons p rest ih =>
    obtain ⟨t1, s⟩ := p
    simp only [regAdd, regFind]
    split
    · rename_i ht
      simp
    · rename_i ht
      simp only [List.map_cons, ih]
      split
      · rfl
      · rfl

theorem regAdd_of_mem {r : Registry} {t : Topic} {a : Address} {l : List Address}
    (hf : regFind r t = some l) (ha : a ∈ l) : regAdd r t a = r := by
  induction r with
  | nil => simp [regFind] at hf
  | cons p rest ih =>
    obtain ⟨t1, s⟩ := p
    simp only [regFind] at hf
    simp only [regAdd]
    split
    · rename_i ht
      rw [if_pos ht] at hf
      injection hf with h2
      subst h2
      rw [setAdd_of_mem ha]
    · rename_i ht
      rw [if_neg ht] at hf
      rw [ih hf]

theorem regAdd_vals_ne_nil {r : Registry}
    (h : ∀ p ∈ r, p.2 ≠ ([] : List Address)) (t : Topic) (a : Address) :
    ∀ p ∈ regAdd r t a, p.2 ≠ ([] : List Address) := by
  induction r with
  | nil =>
    intro p hp
    simp only [regAdd, List.mem_singleton] at hp
    subst hp
    simp
  | cons q rest ih =>
    obtain ⟨t1, s⟩ := q
    intro p hp
    simp only [regAdd] at hp
    split at hp
    · rcases List.mem_cons.mp hp with h1 | h1
      · subst h1
        exact setAdd_ne_nil s a
      · exact h p (List.mem_cons_of_mem _ h1)
    · rcases List.mem_cons.mp hp with h1 | h1
      · subst h1
        exact h _ (List.mem_cons_self _ _)
      · exact ih (fun q hq => h q (List.mem_cons_of_mem _ hq)) p h1

theorem regAdd_vals_nodup {r : Registry}
    (h : ∀ p ∈ r, p.2.Nodup) (t : Topic) (a : Address) :
    ∀ p ∈ regAdd r t a, p.2.Nodup := by
  induction r with
  | nil =>
    intro p hp
    simp only [regAdd, List.mem_singleton] at hp
    subst hp
    simp
  | cons q rest ih =>
    obtain ⟨t1, s⟩ := q
    intro p hp
    simp only [regAdd] at hp
    split at hp
    · rcases List.mem_cons.mp hp with h1 | h1
      · subst h1
        exact setAdd_nodup a (h _ (List.mem_cons_self _ _))
      · exact h p (List.mem_cons_of_mem _ h1)
    · rcases List.mem_cons.mp hp with h1 | h1
      · subst h1
        exact h _ (List.mem_cons_self _ _)
      · exact ih (fun q hq => h q (List.mem_cons_of_mem _ hq)) p h1

theorem regAdd_keys_nodup {r : Registry}
    (h : (r.map Prod.fst).Nodup) (t : Topic) (a : Address) :
    ((regAdd r t a).map Prod.fst).Nodup := by
  rw [regAdd_map_fst]
  split
  · exact h
  · rename_i hf
    have hnone : regFind r t = none := by
      cases hx : regFind r t with
      | none => rfl
      | some l => rw [hx] at hf; simp at hf
    have ht := regFind_eq_none.mp hnone
    rw [List.nodup_append]
    refine ⟨h, List.nodup_singleton t, ?_⟩
    intro x hx hxt
    simp only [List.mem_singleton] at hxt
    exact ht (hxt ▸ hx)

theorem process_subscription_subscribers (tp : TreeProvider) (b : Bool)
    (reg : Registry) (t : Topic) (a : Address) :
    (process_subscription tp b reg t a).subscribers = regAdd reg t a := rfl

theorem regAdd_inv {r : Registry} (h : RegInv r) (t : Topic) (a : Address) :
    RegInv (regAdd r t a) :=
  ⟨regAdd_vals_ne_nil h.1 t a, regAdd_keys_nodup h.2.1 t a,
   regAdd_vals_nodup h.2.2 t a⟩

theorem reachable_inv {r : Registry} (h : RegReachable r) : RegInv r := by
  induction h with
  | init => exact ⟨by simp, by simp, by simp⟩
  | step tp b t a hr ih =>
    rw [process_subscription_subscribers]
    exact regAdd_inv ih t a

theorem regFind_isSome_iff {r : Registry}
    (hinv : ∀ p ∈ r, p.2 ≠ ([] : List Address)) (t : Topic) :
    (regFind r t).isSome = true ↔ regGet r t ≠ [] := by
  cases hx : regFind r t with
  | none => simp [regGet, hx]
  | some l =>
    simp only [regGet, hx, Option.isSome_some, Option.getD_some, true_iff]
    exact hinv (t, l) (regFind_mem hx)

theorem unicastSends_abort (transport : Address → Bool) (port : Nat) (msg : String)
    (topic : Topic) (pre post : List Address) (a : Address)
    (hpre : ∀ x ∈ pre, transport x = false) (ha : transport a = true) :
    unicastSends transport port msg topic (pre ++ a :: post) =
      (false, pre.map fun x => ⟨x, port, "/events/" ++ topic, msg⟩) := by
  induction pre with
  | nil => simp [unicastSends, sendto, ha]
  | cons x rest ih =>
    have hx := hpre x (List.mem_cons_self _ _)
    have ihx := ih fun y hy => hpre y (List.mem_cons_of_mem _ hy)
    simp [unicastSends, sendto, hx, ihx]

theorem unicastSends_ok (transport : Address → Bool) (port : Nat) (msg : String)
    (topic : Topic) (addrs : List Address)
    (h : ∀ x ∈ addrs, transport x = false) :
    unicastSends transport port msg topic addrs =
      (true, addrs.map fun x => ⟨x, port, "/events/" ++ topic, msg⟩) := by
  induction addrs with
  | nil => simp [unicastSends]
  | cons x rest ih =>
    have hx := h x (List.mem_cons_self _ _)
    have ihx := ih fun y hy => h y (List.mem_cons_of_mem _ hy)
    simp [unicastSends, sendto, hx, ihx]

/-! ### The claims -/

/-- C1 counterexample: with multicast/topology mode active and a Tree Provider
whose host resolution fails, `process_subscription` returns `false`, yet the
Subscriber Registry is NOT left unchanged — the address was inserted under the
request topic (line 258) before the validation ran, contradicting the claim as
stated. -/
theorem C1_counterexample :
    (process_subscription tpNoHost true [] "seismic_alert" "10.0.0.9").retval
      = false ∧
    (process_subscription tpNoHost true [] "seismic_alert" "10.0.0.9").subscribers
      = [("seismic_alert", ["10.0.0.9"])] :=
  ⟨rfl, rfl⟩

/-- C1 (amended): when multicast/topology mode is active and host resolution or
path computation fails, `process_subscription` returns `false` and no subscriber
registration reaches the Tree Provider, but the Subscriber Registry has already
been mutated: the address was added under the request topic before validation. -/
theorem C1_failed_subscription (tp : TreeProvider) (reg : Registry)
    (topic : Topic) (host : Address)
    (hfail : (∃ e, tp.get_host_by_ip host = Except.error e) ∨
      (∃ host2 e, tp.get_host_by_ip host = Except.ok host2 ∧
        tp.get_path host2 tp.dpid = Except.error e)) :
    (process_subscription tp true reg topic host).retval = false ∧
    (process_subscription tp true reg topic host).rided_subs = [] ∧
    (process_subscription tp true reg topic host).subscribers
      = regAdd reg topic host := by
  refine ⟨?_, ?_, rfl⟩ <;>
  · rcases hfail with ⟨e, he⟩ | ⟨h2, e, hok, he⟩
    · simp [process_subscription, he]
    · simp [process_subscription, hok, he]

/-- Witness for C1 (amended) at a concrete failing provider and input. -/
theorem C1_failed_subscription_witness :
    (process_subscription tpNoHost true [] "seismic_alert" "10.0.0.8").retval
      = false ∧
    (process_subscription tpNoHost true [] "seismic_alert" "10.0.0.8").rided_subs
      = [] ∧
    (process_subscription tpNoHost true [] "seismic_alert" "10.0.0.8").subscribers
      = regAdd [] "seismic_alert" "10.0.0.8" :=
  C1_failed_subscription tpNoHost [] "seismic_alert" "10.0.0.8"
    (Or.inl ⟨PyErr.otherError, rfl⟩)

/-- C2: in multicast mode, when the Tree Provider has no multicast address for
the topic of the event (no tree, or the lookup fails), `send_event` returns `false`,
raises nothing to the caller (in the embedding it is a total function into
`Bool × List SendRec`), and issues no outbound send. -/
theorem C2_multicast_no_address (tp : TreeProvider) (transport : Address → Bool)
    (encode : SensedEvent → String) (st : SinkState) (event : SensedEvent)
    (hmc : st.use_multicast = true)
    (hlook : tp.get_best_multicast_address event.topic = none) :
    send_event tp transport encode st event = (false, []) := by
  simp [send_event, hmc, hlook]

/-- Witness for C2 at a concrete treeless provider. -/
theorem C2_multicast_no_address_witness :
    send_event tpNoTree transportUp encodeJson stMulticast evSeismic
      = (false, []) :=
  C2_multicast_no_address tpNoTree transportUp encodeJson stMulticast evSeismic
    rfl rfl

/-- C3 counterexample: in unicast mode with the two subscribers `10.0.0.2` and
`10.0.0.3` registered under topic `alerts` and a transport that raises `IOError`
only for `10.0.0.2`, `send_event` issues NO send at all — the failure on the
first address aborts the loop (the whole iteration sits in one `try` block), so
no send is issued to the still-healthy `10.0.0.3`, contradicting the claim. -/
theorem C3_counterexample :
    regGet stUnicast.subscribers "alerts" = ["10.0.0.2", "10.0.0.3"] ∧
    transportDownA "10.0.0.2" = true ∧
    transportDownA "10.0.0.3" = false ∧
    send_event tpOk transportDownA encodeJson stUnicast evAlerts = (false, []) := by
  refine ⟨by decide, by decide, by decide, by decide⟩

/-- C3 (amended): in unicast mode a transport-level failure at one subscriber
DOES abort the sends to the remaining ones: with the registered addresses being
`pre ++ a :: post`, the transport healthy on `pre` and raising `IOError` at `a`,
`send_event` returns `false` and issues sends exactly to the addresses in `pre`;
the addresses in `post` receive none. -/
theorem C3_unicast_abort (tp : TreeProvider) (transport : Address → Bool)
    (encode : SensedEvent → String) (st : SinkState) (event : SensedEvent)
    (pre post : List Address) (a : Address)
    (hm : st.use_multicast = false)
    (hsubs : regGet st.subscribers event.topic = pre ++ a :: post)
    (hpre : ∀ x ∈ pre, transport x = false) (ha : transport a = true) :
    send_event tp transport encode st event =
      (false, pre.map fun x =>
        ⟨x, st.port, "/events/" ++ event.topic, encode event⟩) := by
  have h := unicastSends_abort transport st.port (encode event) event.topic
    pre post a hpre ha
  simp [send_event, hm, hsubs, h]

/-- Witness for C3 (amended): three subscribers, failure at the second; only the
first receives a send. -/
theorem C3_unicast_abort_witness :
    send_event tpOk transportDownA encodeJson stUnicast3 evAlerts =
      (false, [⟨"10.0.0.1", 5683, "/events/alerts", encodeJson evAlerts⟩]) :=
  C3_unicast_abort tpOk transportDownA encodeJson stUnicast3 evAlerts
    ["10.0.0.1"] ["10.0.0.3"] "10.0.0.2" rfl rfl (by decide) (by decide)

/-- C4: in unicast mode with exactly the subscribers A then B registered under
the topic of the event and a transport that accepts both sends, `send_event` issues
exactly two sends, to (A, configured port) and (B, configured port), both
carrying the same single serialization `encode event` of the event. -/
theorem C4_unicast_two_subscribers (tp : TreeProvider)
    (transport : Address → Bool) (encode : SensedEvent → String)
    (st : SinkState) (event : SensedEvent) (A B : Address)
    (hm : st.use_multicast = false)
    (hsubs : regGet st.subscribers event.topic = [A, B])
    (hA : transport A = false) (hB : transport B = false) :
    send_event tp transport encode st event =
      (true, [⟨A, st.port, "/events/" ++ event.topic, encode event⟩,
              ⟨B, st.port, "/events/" ++ event.topic, encode event⟩]) := by
  have h := unicastSends_ok transport st.port (encode event) event.topic [A, B]
    (by
      intro x hx
      rcases List.mem_cons.mp hx with rfl | hx2
      · exact hA
      · rcases List.mem_cons.mp hx2 with rfl | hx3
        · exact hB
        · simp at hx3)
  simp [send_event, hm, hsubs, h]

/-- Witness for C4 at a concrete two-subscriber state and healthy transport. -/
theorem C4_unicast_two_subscribers_witness :
    send_event tpOk transportUp encodeJson stUnicast evAlerts =
      (true, [⟨"10.0.0.2", 5683, "/events/alerts", encodeJson evAlerts⟩,
              ⟨"10.0.0.3", 5683, "/events/alerts", encodeJson evAlerts⟩]) :=
  C4_unicast_two_subscribers tpOk transportUp encodeJson stUnicast evAlerts
    "10.0.0.2" "10.0.0.3" rfl rfl rfl rfl

/-- C5: for every reachable sink state, `check_available` is true iff the
topic of the event is in the configured allow-list and at least one subscriber is
registered under it; in particular it is false when the topic has no
subscribers. -/
theorem C5_check_available_iff (st : SinkState) (event : SensedEvent)
    (hreach : RegReachable st.subscribers) :
    check_available st event = true ↔
      (event.topic ∈ st.topics_to_sink
        ∧ regGet st.subscribers event.topic ≠ []) := by
  have hinv := (reachable_inv hreach).1
  rw [check_available, Bool.and_eq_true, regFind_isSome_iff hinv]
  constructor
  · intro h
    exact ⟨by simpa using h.1, h.2⟩
  · intro h
    exact ⟨by simpa using h.1, h.2⟩

/-- Witness for C5 at a concrete reachable two-subscriber state. -/
theorem C5_check_available_iff_witness :
    check_available stUnicast evAlerts = true ↔
      (evAlerts.topic ∈ stUnicast.topics_to_sink
        ∧ regGet stUnicast.subscribers evAlerts.topic ≠ []) :=
  C5_check_available_iff stUnicast evAlerts
    (RegReachable.step tpOk false "alerts" "10.0.0.3"
      (RegReachable.step tpOk false "alerts" "10.0.0.2" RegReachable.init))

/-- C6: the startup publisher pass handles each publisher independently — a
publisher whose path computation, rule derivation or installation raises is
skipped without affecting the processing of the remaining publishers — and every
publisher all of whose steps succeed has its computed path registered as its
static route with the Tree Provider. -/
theorem C6_publisher_routes (tp : TreeProvider) (pre post : List String)
    (p : String) :
    (∀ e, installPublisherRoute tp p = Except.error e →
      install_publisher_routes tp (pre ++ p :: post) =
        install_publisher_routes tp pre ++ install_publisher_routes tp post) ∧
    (∀ route, installPublisherRoute tp p = Except.ok route →
      (p, route) ∈ install_publisher_routes tp (pre ++ p :: post)) := by
  constructor
  · intro e he
    simp [install_publisher_routes, List.filterMap_append, List.filterMap_cons, he]
  · intro route hr
    simp [install_publisher_routes, List.filterMap_append, List.filterMap_cons, hr]

/-- Witness for C6: with path computation failing exactly for `pBad`, the pass
skips `pBad` without disturbing its neighbours, and registers the route of `pGood`. -/
theorem C6_publisher_routes_witness :
    install_publisher_routes tpPubFail (["pGood"] ++ "pBad" :: ["p2"]) =
      install_publisher_routes tpPubFail ["pGood"]
        ++ install_publisher_routes tpPubFail ["p2"] ∧
    ("pGood", ["pGood", "s0"])
      ∈ install_publisher_routes tpPubFail ([] ++ "pGood" :: ["pBad", "p2"]) :=
  ⟨(C6_publisher_routes tpPubFail ["pGood"] ["p2"] "pBad").1
      PyErr.otherError rfl,
   (C6_publisher_routes tpPubFail [] ["pBad", "p2"] "pGood").2
      ["pGood", "s0"] rfl⟩

/-- C7: registry insertion is idempotent — adding a (topic, address) pair that is
already present returns the registry unchanged — and after any sequence of
insertions starting from the empty registry there are no duplicate entries for
the same (topic, address) pair: keys are unique and every subscriber set is
duplicate-free. -/
theorem C7_idempotent_insert :
    (∀ (r : Registry) (t : Topic) (a : Address) (l : List Address),
      regFind r t = some l → a ∈ l → regAdd r t a = r) ∧
    (∀ r : Registry, RegReachable r →
      ((r.map Prod.fst).Nodup ∧ ∀ p ∈ r, p.2.Nodup)) := by
  refine ⟨fun r t a l hf ha => regAdd_of_mem hf ha, fun r h => ?_⟩
  have hinv := reachable_inv h
  exact ⟨hinv.2.1, hinv.2.2⟩

/-- Witness for C7: re-adding a present pair is a no-op, and a concrete reachable
registry is duplicate-free. -/
theorem C7_idempotent_insert_witness :
    regAdd [("alerts", ["10.0.0.2"])] "alerts" "10.0.0.2"
      = [("alerts", ["10.0.0.2"])] ∧
    (([("alerts", ["10.0.0.2"])] : Registry).map Prod.fst).Nodup :=
  ⟨C7_idempotent_insert.1 [("alerts", ["10.0.0.2"])] "alerts" "10.0.0.2"
      ["10.0.0.2"] (by decide) (by decide),
   (C7_idempotent_insert.2 [("alerts", ["10.0.0.2"])]
      (RegReachable.step tpOk false "alerts" "10.0.0.2" RegReachable.init)).1⟩

/-- C8 counterexample: a successful `process_subscription` call with multicast
mode disabled and request topic `other_topic` records the address in the
Subscriber Registry under `other_topic` and NOT under the canonical alert topic,
contradicting the claim as stated. -/
theorem C8_counterexample :
    (process_subscription tpOk false [] "other_topic" "10.0.0.5").retval
      = true ∧
    regFind (process_subscription tpOk false [] "other_topic" "10.0.0.5").subscribers
      SEISMIC_ALERT_TOPIC = none ∧
    regFind (process_subscription tpOk false [] "other_topic" "10.0.0.5").subscribers
      "other_topic" = some ["10.0.0.5"] := by
  refine ⟨rfl, by decide, by decide⟩

/-- C8 (amended): on every successful call the address is recorded in the
Subscriber Registry under the topic of the incoming request; when multicast/topology
mode is active, the resolved host is additionally registered with the Tree
Provider under the canonical alert topic, independent of the incoming topic
string. -/
theorem C8_success_registration (tp : TreeProvider) (b : Bool) (reg : Registry)
    (topic : Topic) (host : Address)
    (hok : (process_subscription tp b reg topic host).retval = true) :
    (process_subscription tp b reg topic host).subscribers
      = regAdd reg topic host ∧
    (b = true → ∃ host2, tp.get_host_by_ip host = Except.ok host2 ∧
      (process_subscription tp b reg topic host).rided_subs
        = [(host2, SEISMIC_ALERT_TOPIC)]) := by
  refine ⟨rfl, fun hb => ?_⟩
  subst hb
  cases hx : tp.get_host_by_ip host with
  | error e => simp [process_subscription, hx] at hok
  | ok host2 =>
    cases hy : tp.get_path host2 tp.dpid with
    | error e => simp [process_subscription, hx, hy] at hok
    | ok path =>
      cases hz : tp.add_subscriber host2 SEISMIC_ALERT_TOPIC with
      | error e => simp [process_subscription, hx, hy, hz] at hok
      | ok u => exact ⟨host2, rfl, by simp [process_subscription, hx, hy, hz]⟩

/-- Witness for C8 (amended) at a concrete healthy provider in multicast mode. -/
theorem C8_success_registration_witness :
    (process_subscription tpOk true [] "seismic_alert" "10.0.0.4").subscribers
      = regAdd [] "seismic_alert" "10.0.0.4" ∧
    (true = true → ∃ host2, tpOk.get_host_by_ip "10.0.0.4" = Except.ok host2 ∧
      (process_subscription tpOk true [] "seismic_alert" "10.0.0.4").rided_subs
        = [(host2, SEISMIC_ALERT_TOPIC)]) :=
  C8_success_registration tpOk true [] "seismic_alert" "10.0.0.4" rfl

/-- C9: a CoAP subscription request whose payload topic differs from the single
supported alert topic fails with an uncaught `AssertionError` (no structured
rejection is returned) and neither the Subscriber Registry nor the Tree Provider
registrations are mutated by the request. -/
theorem C9_coap_topic_assert (tp : TreeProvider) (b : Bool) (reg : Registry)
    (srcHost : Address) (payload : String)
    (hne : payload ≠ SEISMIC_ALERT_TOPIC) :
    process_coap_subscription tp b reg srcHost payload =
      (Except.error PyErr.assertionError, reg, []) := by
  simp [process_coap_subscription, hne]

/-- Witness for C9 at a concrete malformed request. -/
theorem C9_coap_topic_assert_witness :
    process_coap_subscription tpOk true [] "10.0.0.7" "bogus" =
      (Except.error PyErr.assertionError, [], []) :=
  C9_coap_topic_assert tpOk true [] "10.0.0.7" "bogus" (by decide)

/-- C10: in every reachable state of the sink, every topic that appears as a key
of the Subscriber Registry maps to a non-empty subscriber set; hence testing key
membership (as `check_available` does) is equivalent to testing for at least one
subscriber. -/
theorem C10_nonempty_invariant (r : Registry) (hreach : RegReachable r) :
    (∀ t l, (t, l) ∈ r → l ≠ []) ∧
    (∀ t, (regFind r t).isSome = true ↔ regGet r t ≠ []) := by
  have hinv := reachable_inv hreach
  exact ⟨fun t l hm => hinv.1 (t, l) hm, fun t => regFind_isSome_iff hinv.1 t⟩

/-- Witness for C10 at a concrete reachable registry. -/
theorem C10_nonempty_invariant_witness :
    (∀ t l, (t, l) ∈ ([("alerts", ["10.0.0.2"])] : Registry) → l ≠ []) ∧
    (∀ t, (regFind [("alerts", ["10.0.0.2"])] t).isSome = true ↔
      regGet [("alerts", ["10.0.0.2"])] t ≠ []) :=
  C10_nonempty_invariant [("alerts", ["10.0.0.2"])]
    (RegReachable.step tpOk false "alerts" "10.0.0.2" RegReachable.init)

end RideD
